import Mathlib

/-!
Verification of the ESP_LiveView frame server (`servercodes/app.py`).

The server keeps a flat upload directory (the Frame Store), a module-level
`latest_image` record (the Latest-Pointer Register), and three HTTP handlers:
`upload_image` (POST /upload), `get_latest_image` (GET /latest) and
`get_image` (GET /images/<filename>).  This file gives a shallow embedding of
that code: bytes are `List Nat`, the store is an association list whose head
is the most recent write, and each handler is a pure function from server
state and request to the new state and the HTTP response.
-/

namespace ESPLiveView

/-- First-match lookup in an association list, as Python dict / werkzeug
MultiDict access does for the keys used by the app. -/
def lookupFirst {α : Type} : List (String × α) → String → Option α
  | [], _ => none
  | (k, v) :: rest, key => if k = key then some v else lookupFirst rest key

/-- One decimal digit character. -/
def digitChar (n : Nat) : Char :=
  match n with
  | 0 => '0' | 1 => '1' | 2 => '2' | 3 => '3' | 4 => '4'
  | 5 => '5' | 6 => '6' | 7 => '7' | 8 => '8' | _ => '9'

/-- Decimal digits of `n`, most significant first; fuel-structured so the
kernel can evaluate it. -/
def natToDigitsAux : Nat → Nat → List Char → List Char
  | 0, _, acc => acc
  | fuel + 1, n, acc =>
    if n < 10 then digitChar n :: acc
    else natToDigitsAux fuel (n / 10) (digitChar (n % 10) :: acc)

/-- Decimal representation of a natural number. -/
def natToDigits (n : Nat) : List Char := natToDigitsAux (n + 1) n []

/-- Decimal representation as a string. -/
def natToStr (n : Nat) : String := String.mk (natToDigits n)

/-- Zero-pad the decimal digits of `n` on the left to width `w`, as the
`strftime` numeric fields do. -/
def padDigits (w : Nat) (n : Nat) : List Char :=
  List.replicate (w - (natToDigits n).length) '0' ++ natToDigits n

/-- A wall-clock instant as `datetime.now()` delivers it: calendar fields
down to seconds, plus the sub-second microseconds that
`strftime("%Y%m%d_%H%M%S")` discards. -/
structure DateTime where
  year : Nat
  month : Nat
  day : Nat
  hour : Nat
  minute : Nat
  second : Nat
  micro : Nat
deriving DecidableEq

/-- `datetime.now().strftime("%Y%m%d_%H%M%S")`: the timestamp string used in
the storage key, a function of the time truncated to whole seconds. -/
def strftimeKey (t : DateTime) : String :=
  String.mk (padDigits 4 t.year ++ padDigits 2 t.month ++ padDigits 2 t.day
    ++ ['_'] ++ padDigits 2 t.hour ++ padDigits 2 t.minute ++ padDigits 2 t.second)

/-- Value of a standard base64 alphabet character, `none` for every other
character (which Python's non-validating decoder skips). -/
def b64charVal (c : Char) : Option Nat :=
  if 'A' ≤ c ∧ c ≤ 'Z' then some (c.toNat - 65)
  else if 'a' ≤ c ∧ c ≤ 'z' then some (c.toNat - 97 + 26)
  else if '0' ≤ c ∧ c ≤ '9' then some (c.toNat - 48 + 52)
  else if c = '+' then some 62
  else if c = '/' then some 63
  else none

/-- Error text CPython's decoder produces when the data-character count is
1 more than a multiple of 4. -/
def invalidLengthMsg (nd : Nat) : String :=
  "Invalid base64-encoded string: number of data characters ("
    ++ natToStr nd ++ ") cannot be 1 more than a multiple of 4"

/-- Core loop of CPython `binascii.a2b_base64` in non-strict mode, the
decoder behind `base64.b64decode(s)`: non-alphabet characters are skipped,
`'='` at quad position ≥ 2 completes the quad and ends decoding, and a
leftover quad position at the end is a padding error.  Arguments: remaining
characters, quad position, pending bits, pad count, data-character count,
output bytes (reversed). -/
def b64core : List Char → Nat → Nat → Nat → Nat → List Nat → Except String (List Nat)
  | [], qp, _, _, nd, acc =>
    if qp = 0 then Except.ok acc.reverse
    else if qp = 1 then Except.error (invalidLengthMsg nd)
    else Except.error "Incorrect padding"
  | c :: cs, qp, lc, pads, nd, acc =>
    if c = '=' then
      if 2 ≤ qp ∧ 4 ≤ qp + (pads + 1) then Except.ok acc.reverse
      else if 2 ≤ qp then b64core cs qp lc (pads + 1) nd acc
      else b64core cs qp lc pads nd acc
    else
      match b64charVal c with
      | none => b64core cs qp lc pads nd acc
      | some v =>
        if qp = 0 then b64core cs 1 v 0 (nd + 1) acc
        else if qp = 1 then b64core cs 2 (v % 16) 0 (nd + 1) ((lc * 4 + v / 16) :: acc)
        else if qp = 2 then b64core cs 3 (v % 4) 0 (nd + 1) ((lc * 16 + v / 4) :: acc)
        else b64core cs 0 0 0 (nd + 1) ((lc * 64 + v) :: acc)

/-- `base64.b64decode` on a character list: the decoded bytes, or the raised
`binascii.Error`'s message. -/
def b64decode (s : List Char) : Except String (List Nat) :=
  b64core s 0 0 0 0 []

/-- Python `str.split(',')`: the comma-separated pieces of a character
list; an empty input gives one empty piece. -/
def splitComma : List Char → List (List Char)
  | [] => [[]]
  | c :: cs =>
    if c = ',' then [] :: splitComma cs
    else
      match splitComma cs with
      | [] => [[c]]
      | h :: t => (c :: h) :: t

/-- The data-URI stripping step of the form-field branch, from
`if ',' in image_data: image_data = image_data.split(',')[1]`:
when a comma is present the payload becomes element 1 of the comma split,
the segment strictly between the first and second commas. -/
def stripPayload (s : List Char) : List Char :=
  if ',' ∈ s then (splitComma s).getD 1 [] else s

/-- Everything strictly after the first comma of the list (the whole list
has no comma). -/
def afterFirstComma : List Char → List Char
  | [] => []
  | c :: cs => if c = ',' then cs else afterFirstComma cs

/-- The stripping step as the specification words it: drop exactly the
prefix up to and including the first comma and nothing else.  Stated
separately from `stripPayload` (the code's behaviour) so the two can be
compared. -/
def stripPayloadSpec (s : List Char) : List Char :=
  if ',' ∈ s then afterFirstComma s else s

/-- One part of a multipart upload: the client-sent filename and the raw
bytes. -/
structure FilePart where
  filename : String
  content : List Nat
deriving DecidableEq

/-- An HTTP POST /upload request as the handler sees it: `request.files`
and `request.form`. -/
structure UploadRequest where
  files : List (String × FilePart)
  form : List (String × String)
deriving DecidableEq

/-- A JSON response: HTTP status code and a JSON object of string-or-null
values (the only shapes the app produces). -/
structure HttpResponse where
  status : Nat
  body : List (String × Option String)
deriving DecidableEq

/-- The server's mutable state: the upload directory as an association list
whose head is the most recent write (the Frame Store), and the two fields
of the module-level `latest_image` dict (the Latest-Pointer Register). -/
structure ServerState where
  store : List (String × List Nat)
  latest_filename : Option String
  latest_timestamp : Option String
deriving DecidableEq

/-- State at process start: empty upload directory, register
`{'filename': None, 'timestamp': None}`. -/
def initState : ServerState := ⟨[], none, none⟩

/-- The POST /upload handler `upload_image`, translated clause by clause
from `app.py`.  `now` is the value `datetime.now()` returns in whichever
branch runs.  In the form branch, `open(filepath, "wb")` creates the file
before `base64.b64decode` runs, so a decode failure still leaves an empty
blob at the key while the register is untouched. -/
def upload_image (now : DateTime) (st : ServerState) (req : UploadRequest) :
    ServerState × HttpResponse :=
  if lookupFirst req.files "image" = none ∧ lookupFirst req.form "image" = none then
    (st, ⟨400, [("error", some "No image data found")]⟩)
  else
    match lookupFirst req.files "image" with
    | some image_file =>
      if image_file.filename = "" then
        (st, ⟨400, [("error", some "No image selected")]⟩)
      else
        let timestamp := strftimeKey now
        let filename := "image_" ++ timestamp ++ ".jpg"
        let st1 : ServerState := { st with store := (filename, image_file.content) :: st.store }
        ({ st1 with latest_filename := some filename, latest_timestamp := some timestamp },
         ⟨200, [("status", some "success"), ("filename", some filename),
                ("timestamp", some timestamp)]⟩)
    | none =>
      let image_data := (lookupFirst req.form "image").getD ""
      let payload := stripPayload image_data.data
      let timestamp := strftimeKey now
      let filename := "image_" ++ timestamp ++ ".jpg"
      let st1 : ServerState := { st with store := (filename, []) :: st.store }
      match b64decode payload with
      | Except.error e => (st1, ⟨500, [("error", some e)]⟩)
      | Except.ok bytes =>
        ({ st1 with store := (filename, bytes) :: st1.store,
                    latest_filename := some filename, latest_timestamp := some timestamp },
         ⟨200, [("status", some "success"), ("filename", some filename),
                ("timestamp", some timestamp)]⟩)

/-- The GET /latest handler `get_latest_image`: truthiness of
`latest_image['filename']` decides between the descriptor and the 404.  The
handler does not mutate anything, so it returns the state unchanged. -/
def get_latest_image (st : ServerState) : ServerState × HttpResponse :=
  match st.latest_filename with
  | some fn =>
    if fn = "" then (st, ⟨404, [("error", some "No image uploaded yet")]⟩)
    else
      (st, ⟨200, [("filename", some fn), ("timestamp", st.latest_timestamp),
                  ("url", some ("/images/" ++ fn))]⟩)
  | none => (st, ⟨404, [("error", some "No image uploaded yet")]⟩)

/-- Response of the GET /images/<filename> route: the raw bytes or a 404. -/
inductive ImgResponse where
  | ok : List Nat → ImgResponse
  | notFound : ImgResponse
deriving DecidableEq

/-- The GET /images/<filename> handler `get_image`, which delegates to
Flask's `send_from_directory(UPLOAD_FOLDER, filename)`.  Modelled from that
library call's contract together with the route: the `<filename>` converter
never matches a segment containing `/` (such requests get the router's
404), `werkzeug.utils.safe_join` rejects `..`, alternative separators and
absolute escapes with a 404, `.` resolves to the directory itself and fails
the file check, and a safe name is served from the flat store or 404s when
absent. -/
def get_image (st : ServerState) (filename : String) : ImgResponse :=
  if filename = "" ∨ filename = "." ∨ filename = ".." ∨
      '/' ∈ filename.data ∨ '\\' ∈ filename.data then
    ImgResponse.notFound
  else
    match lookupFirst st.store filename with
    | some bs => ImgResponse.ok bs
    | none => ImgResponse.notFound

/-- A client-visible operation against the server. -/
inductive Op where
  | upload : DateTime → UploadRequest → Op
  | latest : Op
  | image : String → Op

/-- State transition of one operation (GET handlers do not change state). -/
def applyOp (st : ServerState) : Op → ServerState
  | Op.upload now req => (upload_image now st req).1
  | Op.latest => (get_latest_image st).1
  | Op.image _ => st

/-- State after a sequence of operations. -/
def runOps (ops : List Op) (st : ServerState) : ServerState :=
  ops.foldl applyOp st

/-! ### The Latest-Pointer Register at field granularity

`latest_image['filename'] = filename` and
`latest_image['timestamp'] = timestamp` are two separate statements in the
upload handler, so a register update is two separate field writes.  This
finer model is used for the claims about atomicity of the register. -/

/-- The register alone: the two fields of the `latest_image` dict. -/
structure Reg where
  fn : Option String
  ts : Option String
deriving DecidableEq

/-- One field assignment to the register. -/
inductive RegWrite where
  | wfn : String → RegWrite
  | wts : String → RegWrite
deriving DecidableEq

/-- Effect of one field assignment. -/
def applyWrite (r : Reg) : RegWrite → Reg
  | RegWrite.wfn v => { r with fn := some v }
  | RegWrite.wts v => { r with ts := some v }

/-- The write sequence one register update issues, in source order:
filename first, then timestamp. -/
def setWrites (filename timestamp : String) : List RegWrite :=
  [RegWrite.wfn filename, RegWrite.wts timestamp]

/-- Register after a sequence of field writes. -/
def runWrites (ws : List RegWrite) (r : Reg) : Reg :=
  ws.foldl applyWrite r

/-- Register after a sequence of register updates each run to completion
with no interleaving. -/
def runSets (sets : List (String × String)) (r : Reg) : Reg :=
  sets.foldl (fun acc p => runWrites (setWrites p.1 p.2) acc) r

/-- `isInterleaving xs ys zs` holds when `zs` is an interleaving of `xs`
and `ys` (each kept in order). -/
def isInterleaving : List RegWrite → List RegWrite → List RegWrite → Bool
  | [], ys, zs => ys == zs
  | xs, [], zs => xs == zs
  | _ :: _, _ :: _, [] => false
  | x :: xs, y :: ys, z :: zs =>
    (z == x && isInterleaving xs (y :: ys) zs)
      || (z == y && isInterleaving (x :: xs) ys zs)

end ESPLiveView

deriving instance DecidableEq for Except

namespace ESPLiveView

/-! ### Helper lemmas -/

theorem lookupFirst_cons_self {α : Type} (l : List (String × α)) (k : String) (v : α) :
    lookupFirst ((k, v) :: l) k = some v := by
  unfold lookupFirst
  rw [if_pos rfl]

theorem lookupFirst_cons_isSome {α : Type} (l : List (String × α)) (k k' : String) (v : α)
    (h : (lookupFirst l k).isSome = true) :
    (lookupFirst ((k', v) :: l) k).isSome = true := by
  unfold lookupFirst
  split
  · rfl
  · exact h

theorem upload_image_noimage (now : DateTime) (st : ServerState) (req : UploadRequest)
    (hf : lookupFirst req.files "image" = none)
    (hform : lookupFirst req.form "image" = none) :
    upload_image now st req = (st, ⟨400, [("error", some "No image data found")]⟩) := by
  simp [upload_image, hf, hform]

theorem upload_image_emptyname (now : DateTime) (st : ServerState) (req : UploadRequest)
    (fp : FilePart) (hf : lookupFirst req.files "image" = some fp)
    (hn : fp.filename = "") :
    upload_image now st req = (st, ⟨400, [("error", some "No image selected")]⟩) := by
  simp [upload_image, hf, hn]

theorem upload_image_mp (now : DateTime) (st : ServerState) (req : UploadRequest)
    (fp : FilePart) (hf : lookupFirst req.files "image" = some fp)
    (hn : ¬ fp.filename = "") :
    upload_image now st req =
      ({ store := ("image_" ++ strftimeKey now ++ ".jpg", fp.content) :: st.store,
         latest_filename := some ("image_" ++ strftimeKey now ++ ".jpg"),
         latest_timestamp := some (strftimeKey now) },
       ⟨200, [("status", some "success"),
              ("filename", some ("image_" ++ strftimeKey now ++ ".jpg")),
              ("timestamp", some (strftimeKey now))]⟩) := by
  simp [upload_image, hf, hn]

theorem upload_image_form_err (now : DateTime) (st : ServerState) (req : UploadRequest)
    (s : String) (e : String)
    (hf : lookupFirst req.files "image" = none)
    (hform : lookupFirst req.form "image" = some s)
    (hdec : b64decode (stripPayload s.data) = Except.error e) :
    upload_image now st req =
      ({ store := ("image_" ++ strftimeKey now ++ ".jpg", []) :: st.store,
         latest_filename := st.latest_filename,
         latest_timestamp := st.latest_timestamp },
       ⟨500, [("error", some e)]⟩) := by
  unfold upload_image
  rw [hf, hform, if_neg (by simp)]
  simp only [Option.getD_some]
  rw [hdec]

theorem upload_image_form_ok (now : DateTime) (st : ServerState) (req : UploadRequest)
    (s : String) (bs : List Nat)
    (hf : lookupFirst req.files "image" = none)
    (hform : lookupFirst req.form "image" = some s)
    (hdec : b64decode (stripPayload s.data) = Except.ok bs) :
    upload_image now st req =
      ({ store := ("image_" ++ strftimeKey now ++ ".jpg", bs)
           :: ("image_" ++ strftimeKey now ++ ".jpg", []) :: st.store,
         latest_filename := some ("image_" ++ strftimeKey now ++ ".jpg"),
         latest_timestamp := some (strftimeKey now) },
       ⟨200, [("status", some "success"),
              ("filename", some ("image_" ++ strftimeKey now ++ ".jpg")),
              ("timestamp", some (strftimeKey now))]⟩) := by
  unfold upload_image
  rw [hf, hform, if_neg (by simp)]
  simp only [Option.getD_some]
  rw [hdec]

theorem get_latest_image_none (st : ServerState) (h : st.latest_filename = none) :
    get_latest_image st = (st, ⟨404, [("error", some "No image uploaded yet")]⟩) := by
  unfold get_latest_image
  rw [h]

theorem get_latest_image_some (st : ServerState) (fn : String)
    (h : st.latest_filename = some fn) (hn : fn ≠ "") :
    get_latest_image st =
      (st, ⟨200, [("filename", some fn), ("timestamp", st.latest_timestamp),
                  ("url", some ("/images/" ++ fn))]⟩) := by
  simp [get_latest_image, h, hn]

theorem get_latest_image_fst (st : ServerState) : (get_latest_image st).1 = st := by
  rcases h : st.latest_filename with _ | fn
  · rw [get_latest_image_none st h]
  · by_cases hn : fn = ""
    · simp [get_latest_image, h, hn]
    · rw [get_latest_image_some st fn h hn]

/-! ### Characters and shape of generated storage keys -/

/-- Characters that can occur in a `strftimeKey` timestamp. -/
abbrev isKeyChar (c : Char) : Prop :=
  c ∈ ['0', '1', '2', '3', '4', '5', '6', '7', '8', '9', '_']

theorem digitChar_isKey (n : Nat) : isKeyChar (digitChar n) := by
  unfold digitChar
  split <;> decide

theorem mem_natToDigitsAux (fuel : Nat) :
    ∀ (n : Nat) (acc : List Char) (c : Char),
      c ∈ natToDigitsAux fuel n acc → c ∈ acc ∨ isKeyChar c := by
  induction fuel with
  | zero =>
    intro n acc c h
    exact Or.inl h
  | succ f ih =>
    intro n acc c h
    unfold natToDigitsAux at h
    split at h
    · rcases List.mem_cons.mp h with hc | hc
      · exact Or.inr (hc ▸ digitChar_isKey n)
      · exact Or.inl hc
    · rcases ih (n / 10) (digitChar (n % 10) :: acc) c h with hc | hc
      · rcases List.mem_cons.mp hc with h1 | h1
        · exact Or.inr (h1 ▸ digitChar_isKey (n % 10))
        · exact Or.inl h1
      · exact Or.inr hc

theorem mem_padDigits (w n : Nat) (c : Char) (h : c ∈ padDigits w n) : isKeyChar c := by
  unfold padDigits at h
  rcases List.mem_append.mp h with hr | hd
  · have := List.eq_of_mem_replicate hr
    subst this
    decide
  · rcases mem_natToDigitsAux (n + 1) n [] c hd with hc | hc
    · exact absurd hc (List.not_mem_nil c)
    · exact hc

theorem strftimeKey_chars (t : DateTime) (c : Char)
    (hc : c ∈ (strftimeKey t).data) : isKeyChar c := by
  unfold strftimeKey at hc
  simp only [String.data] at hc
  rcases List.mem_append.mp hc with h | h6
  · rcases List.mem_append.mp h with h | h5
    · rcases List.mem_append.mp h with h | h4
      · rcases List.mem_append.mp h with h | h3
        · rcases List.mem_append.mp h with h | h2
          · rcases List.mem_append.mp h with h1 | h1
            · exact mem_padDigits 4 t.year c h1
            · exact mem_padDigits 2 t.month c h1
          · exact mem_padDigits 2 t.day c h2
        · rcases List.mem_cons.mp h3 with h1 | h1
          · exact h1 ▸ (by decide)
          · exact absurd h1 (List.not_mem_nil c)
      · exact mem_padDigits 2 t.hour c h4
    · exact mem_padDigits 2 t.minute c h5
  · exact mem_padDigits 2 t.second c h6

theorem genFilename_data (now : DateTime) :
    ("image_" ++ strftimeKey now ++ ".jpg").data
      = 'i' :: 'm' :: 'a' :: 'g' :: 'e' :: '_'
          :: ((strftimeKey now).data ++ ['.', 'j', 'p', 'g']) := rfl

theorem genFilename_chars (now : DateTime) (c : Char)
    (hc : c ∈ ("image_" ++ strftimeKey now ++ ".jpg").data) :
    isKeyChar c ∨ c ∈ ['i', 'm', 'a', 'g', 'e', '.', 'j', 'p'] := by
  rw [genFilename_data] at hc
  rcases List.mem_cons.mp hc with rfl | hc; · exact Or.inr (by decide)
  rcases List.mem_cons.mp hc with rfl | hc; · exact Or.inr (by decide)
  rcases List.mem_cons.mp hc with rfl | hc; · exact Or.inr (by decide)
  rcases List.mem_cons.mp hc with rfl | hc; · exact Or.inr (by decide)
  rcases List.mem_cons.mp hc with rfl | hc; · exact Or.inr (by decide)
  rcases List.mem_cons.mp hc with rfl | hc; · exact Or.inl (by decide)
  rcases List.mem_append.mp hc with hs | ht
  · exact Or.inl (strftimeKey_chars now c hs)
  · rcases List.mem_cons.mp ht with rfl | ht; · exact Or.inr (by decide)
    rcases List.mem_cons.mp ht with rfl | ht; · exact Or.inr (by decide)
    rcases List.mem_cons.mp ht with rfl | ht; · exact Or.inr (by decide)
    rcases List.mem_cons.mp ht with rfl | ht; · exact Or.inr (by decide)
    exact absurd ht (List.not_mem_nil c)

theorem genFilename_length (now : DateTime) :
    ("image_" ++ strftimeKey now ++ ".jpg").data.length
      = (strftimeKey now).data.length + 10 := by
  rw [genFilename_data]
  simp [List.length_append]

/-- The generated storage key passes the retrieval guard: it is none of the
degenerate names and holds no path separator. -/
theorem genFilename_safe (now : DateTime) :
    ¬("image_" ++ strftimeKey now ++ ".jpg" = ""
      ∨ "image_" ++ strftimeKey now ++ ".jpg" = "."
      ∨ "image_" ++ strftimeKey now ++ ".jpg" = ".."
      ∨ '/' ∈ ("image_" ++ strftimeKey now ++ ".jpg").data
      ∨ '\\' ∈ ("image_" ++ strftimeKey now ++ ".jpg").data) := by
  intro h
  rcases h with h | h | h | h | h
  · have hl : ("image_" ++ strftimeKey now ++ ".jpg").data.length
        = ("" : String).data.length := by rw [h]
    rw [genFilename_length] at hl
    have h0 : ("" : String).data.length = 0 := rfl
    omega
  · have hl : ("image_" ++ strftimeKey now ++ ".jpg").data.length
        = ("." : String).data.length := by rw [h]
    rw [genFilename_length] at hl
    have h0 : ("." : String).data.length = 1 := rfl
    omega
  · have hl : ("image_" ++ strftimeKey now ++ ".jpg").data.length
        = (".." : String).data.length := by rw [h]
    rw [genFilename_length] at hl
    have h0 : (".." : String).data.length = 2 := rfl
    omega
  · rcases genFilename_chars now '/' h with hk | hk <;> exact absurd hk (by decide)
  · rcases genFilename_chars now '\\' h with hk | hk <;> exact absurd hk (by decide)

/-- Retrieval of a generated storage key is the plain store lookup. -/
theorem get_image_genFilename (st : ServerState) (now : DateTime) :
    get_image st ("image_" ++ strftimeKey now ++ ".jpg")
      = (match lookupFirst st.store ("image_" ++ strftimeKey now ++ ".jpg") with
         | some bs => ImgResponse.ok bs
         | none => ImgResponse.notFound) := by
  unfold get_image
  rw [if_neg (genFilename_safe now)]

/-- The generated storage key is not the empty string. -/
theorem genFilename_ne_empty (now : DateTime) :
    "image_" ++ strftimeKey now ++ ".jpg" ≠ "" := by
  intro h
  exact genFilename_safe now (Or.inl h)

/-! ### The register invariant over operation sequences -/

/-- Invariant of the server state: when the Latest-Pointer Register is
non-empty it holds a generated storage key, and the Frame Store has a blob
under that key. -/
def RegisterInv (st : ServerState) : Prop :=
  ∀ fn, st.latest_filename = some fn →
    (∃ t : DateTime, fn = "image_" ++ strftimeKey t ++ ".jpg")
      ∧ (lookupFirst st.store fn).isSome = true

theorem registerInv_init : RegisterInv initState := by
  intro fn h
  simp [initState] at h

theorem upload_preserves_inv (now : DateTime) (st : ServerState) (req : UploadRequest)
    (h : RegisterInv st) : RegisterInv (upload_image now st req).1 := by
  rcases hfe : lookupFirst req.files "image" with _ | fp
  · rcases hfo : lookupFirst req.form "image" with _ | s
    · rw [upload_image_noimage now st req hfe hfo]
      exact h
    · rcases hdec : b64decode (stripPayload s.data) with e | bs
      · rw [upload_image_form_err now st req s e hfe hfo hdec]
        intro fn hfn
        rcases h fn hfn with ⟨hex, hsome⟩
        exact ⟨hex, lookupFirst_cons_isSome st.store fn _ _ hsome⟩
      · rw [upload_image_form_ok now st req s bs hfe hfo hdec]
        intro fn hfn
        simp only [Option.some.injEq] at hfn
        subst hfn
        refine ⟨⟨now, rfl⟩, ?_⟩
        rw [lookupFirst_cons_self]
        rfl
  · by_cases hn : fp.filename = ""
    · rw [upload_image_emptyname now st req fp hfe hn]
      exact h
    · rw [upload_image_mp now st req fp hfe hn]
      intro fn hfn
      simp only [Option.some.injEq] at hfn
      subst hfn
      refine ⟨⟨now, rfl⟩, ?_⟩
      rw [lookupFirst_cons_self]
      rfl

theorem applyOp_preserves_inv (st : ServerState) (op : Op)
    (h : RegisterInv st) : RegisterInv (applyOp st op) := by
  cases op with
  | upload now req => exact upload_preserves_inv now st req h
  | latest =>
    unfold applyOp
    rw [get_latest_image_fst]
    exact h
  | image fn => exact h

theorem registerInv_runOps (ops : List Op) :
    ∀ st : ServerState, RegisterInv st → RegisterInv (runOps ops st) := by
  induction ops with
  | nil => intro st h; exact h
  | cons op rest ih =>
    intro st h
    exact ih (applyOp st op) (applyOp_preserves_inv st op h)

/-- A fixed instant used by the concrete witnesses:
2024-01-01 12:00:00.000000. -/
def now0 : DateTime := ⟨2024, 1, 1, 12, 0, 0, 0⟩

/-! ### The claims -/

/-- Claim C1: over every sequence of Ingestion and Query operations from
process start, whenever the Latest-Pointer Register is non-empty it
references a storage key whose blob write to the Frame Store has already
completed — the handler writes the store before the register and no error
path updates the register. -/
theorem latest_pointer_always_stored (ops : List Op) (fn : String)
    (h : (runOps ops initState).latest_filename = some fn) :
    (lookupFirst (runOps ops initState).store fn).isSome = true :=
  ((registerInv_runOps ops initState registerInv_init) fn h).2

theorem latest_pointer_always_stored_witness :
    (runOps [Op.upload now0 ⟨[("image", ⟨"a.jpg", [1, 2, 3]⟩)], []⟩] initState).latest_filename
        = some "image_20240101_120000.jpg"
      ∧ (lookupFirst
          (runOps [Op.upload now0 ⟨[("image", ⟨"a.jpg", [1, 2, 3]⟩)], []⟩] initState).store
          "image_20240101_120000.jpg").isSome = true :=
  ⟨by decide,
   latest_pointer_always_stored [Op.upload now0 ⟨[("image", ⟨"a.jpg", [1, 2, 3]⟩)], []⟩]
     "image_20240101_120000.jpg" (by decide)⟩

/-- Claim C2: a multipart upload whose file part is named `image` and has
a non-empty filename gets a 200 `{status, filename, timestamp}` response;
a subsequent Query returns that filename, and Retrieval of that filename
returns exactly the uploaded bytes. -/
theorem upload_query_retrieval_roundtrip (now : DateTime) (st : ServerState)
    (req : UploadRequest) (fp : FilePart)
    (hf : lookupFirst req.files "image" = some fp)
    (hn : fp.filename ≠ "") :
    (upload_image now st req).2
      = ⟨200, [("status", some "success"),
               ("filename", some ("image_" ++ strftimeKey now ++ ".jpg")),
               ("timestamp", some (strftimeKey now))]⟩
    ∧ (get_latest_image (upload_image now st req).1).2
      = ⟨200, [("filename", some ("image_" ++ strftimeKey now ++ ".jpg")),
               ("timestamp", some (strftimeKey now)),
               ("url", some ("/images/" ++ ("image_" ++ strftimeKey now ++ ".jpg")))]⟩
    ∧ get_image (upload_image now st req).1 ("image_" ++ strftimeKey now ++ ".jpg")
      = ImgResponse.ok fp.content := by
  rw [upload_image_mp now st req fp hf hn]
  refine ⟨rfl, ?_, ?_⟩
  · rw [get_latest_image_some _ _ rfl (genFilename_ne_empty now)]
  · rw [get_image_genFilename, lookupFirst_cons_self]

theorem upload_query_retrieval_roundtrip_witness :
    ("p.jpg" : String) ≠ ""
    ∧ (upload_image now0 initState ⟨[("image", ⟨"p.jpg", [9, 8]⟩)], []⟩).2
        = ⟨200, [("status", some "success"),
                 ("filename", some "image_20240101_120000.jpg"),
                 ("timestamp", some "20240101_120000")]⟩
    ∧ get_image (upload_image now0 initState ⟨[("image", ⟨"p.jpg", [9, 8]⟩)], []⟩).1
        "image_20240101_120000.jpg" = ImgResponse.ok [9, 8] :=
  ⟨by decide,
   (upload_query_retrieval_roundtrip now0 initState ⟨[("image", ⟨"p.jpg", [9, 8]⟩)], []⟩
      ⟨"p.jpg", [9, 8]⟩ rfl (by decide)).1,
   (upload_query_retrieval_roundtrip now0 initState ⟨[("image", ⟨"p.jpg", [9, 8]⟩)], []⟩
      ⟨"p.jpg", [9, 8]⟩ rfl (by decide)).2.2⟩

/-- Claim C4: the storage key is a pure function of the wall-clock time
truncated to whole seconds, formatted `image_<YYYYMMDD_HHMMSS>.jpg`; two
uploads processed within the same calendar second generate the same key,
the later store write overwrites the earlier blob, and the register holds
whichever update executed last. -/
theorem storage_key_same_second (now now' : DateTime)
    (hsec : now.year = now'.year ∧ now.month = now'.month ∧ now.day = now'.day
      ∧ now.hour = now'.hour ∧ now.minute = now'.minute ∧ now.second = now'.second)
    (st : ServerState) (r1 r2 : UploadRequest) (fp1 fp2 : FilePart)
    (h1 : lookupFirst r1.files "image" = some fp1) (hn1 : fp1.filename ≠ "")
    (h2 : lookupFirst r2.files "image" = some fp2) (hn2 : fp2.filename ≠ "") :
    strftimeKey now' = strftimeKey now
    ∧ ("image_" ++ strftimeKey now ++ ".jpg").data
        = "image_".data
            ++ (padDigits 4 now.year ++ padDigits 2 now.month ++ padDigits 2 now.day
                ++ ['_'] ++ padDigits 2 now.hour ++ padDigits 2 now.minute
                ++ padDigits 2 now.second)
            ++ ".jpg".data
    ∧ lookupFirst (upload_image now st r1).2.body "filename"
        = lookupFirst (upload_image now' (upload_image now st r1).1 r2).2.body "filename"
    ∧ lookupFirst (upload_image now' (upload_image now st r1).1 r2).1.store
        ("image_" ++ strftimeKey now ++ ".jpg") = some fp2.content
    ∧ (upload_image now' (upload_image now st r1).1 r2).1.latest_filename
        = some ("image_" ++ strftimeKey now ++ ".jpg")
    ∧ (upload_image now' (upload_image now st r1).1 r2).1.latest_timestamp
        = some (strftimeKey now) := by
  have hkey : strftimeKey now' = strftimeKey now := by
    obtain ⟨hy, hmo, hd, hh, hmi, hs⟩ := hsec
    cases now
    cases now'
    simp only at hy hmo hd hh hmi hs
    subst hy; subst hmo; subst hd; subst hh; subst hmi; subst hs
    rfl
  rw [upload_image_mp now st r1 fp1 h1 hn1]
  rw [upload_image_mp now' _ r2 fp2 h2 hn2]
  rw [hkey]
  refine ⟨rfl, rfl, rfl, lookupFirst_cons_self _ _ _, rfl, rfl⟩

theorem storage_key_same_second_witness :
    strftimeKey ⟨2024, 1, 1, 12, 0, 0, 999999⟩ = strftimeKey now0
    ∧ lookupFirst (upload_image ⟨2024, 1, 1, 12, 0, 0, 999999⟩
          (upload_image now0 initState ⟨[("image", ⟨"a.jpg", [1]⟩)], []⟩).1
          ⟨[("image", ⟨"b.jpg", [2]⟩)], []⟩).1.store
        "image_20240101_120000.jpg" = some [2]
    ∧ (upload_image ⟨2024, 1, 1, 12, 0, 0, 999999⟩
          (upload_image now0 initState ⟨[("image", ⟨"a.jpg", [1]⟩)], []⟩).1
          ⟨[("image", ⟨"b.jpg", [2]⟩)], []⟩).1.latest_filename
        = some "image_20240101_120000.jpg" :=
  ⟨(storage_key_same_second now0 ⟨2024, 1, 1, 12, 0, 0, 999999⟩ (by decide) initState
      ⟨[("image", ⟨"a.jpg", [1]⟩)], []⟩ ⟨[("image", ⟨"b.jpg", [2]⟩)], []⟩
      ⟨"a.jpg", [1]⟩ ⟨"b.jpg", [2]⟩ rfl (by decide) rfl (by decide)).1,
   (storage_key_same_second now0 ⟨2024, 1, 1, 12, 0, 0, 999999⟩ (by decide) initState
      ⟨[("image", ⟨"a.jpg", [1]⟩)], []⟩ ⟨[("image", ⟨"b.jpg", [2]⟩)], []⟩
      ⟨"a.jpg", [1]⟩ ⟨"b.jpg", [2]⟩ rfl (by decide) rfl (by decide)).2.2.2.1,
   (storage_key_same_second now0 ⟨2024, 1, 1, 12, 0, 0, 999999⟩ (by decide) initState
      ⟨[("image", ⟨"a.jpg", [1]⟩)], []⟩ ⟨[("image", ⟨"b.jpg", [2]⟩)], []⟩
      ⟨"a.jpg", [1]⟩ ⟨"b.jpg", [2]⟩ rfl (by decide) rfl (by decide)).2.2.2.2.1⟩

/-- Claim C10: when a request carries `image` both as a multipart file
part and as a form field, the handler processes only the file part: the
response and state are independent of the form contents, and the stored
bytes are the file part's bytes. -/
theorem multipart_part_wins (now : DateTime) (st : ServerState)
    (files : List (String × FilePart)) (form form' : List (String × String)) (fp : FilePart)
    (hf : lookupFirst files "image" = some fp)
    (_hform : (lookupFirst form "image").isSome = true)
    (hn : fp.filename ≠ "") :
    upload_image now st ⟨files, form⟩ = upload_image now st ⟨files, form'⟩
    ∧ lookupFirst (upload_image now st ⟨files, form⟩).1.store
        ("image_" ++ strftimeKey now ++ ".jpg") = some fp.content := by
  constructor
  · rw [upload_image_mp now st ⟨files, form⟩ fp hf hn,
      upload_image_mp now st ⟨files, form'⟩ fp hf hn]
  · rw [upload_image_mp now st ⟨files, form⟩ fp hf hn]
    exact lookupFirst_cons_self _ _ _

theorem multipart_part_wins_witness :
    upload_image now0 initState ⟨[("image", ⟨"c.jpg", [4, 5]⟩)], [("image", "Zm9v")]⟩
        = upload_image now0 initState ⟨[("image", ⟨"c.jpg", [4, 5]⟩)], []⟩
    ∧ lookupFirst (upload_image now0 initState
          ⟨[("image", ⟨"c.jpg", [4, 5]⟩)], [("image", "Zm9v")]⟩).1.store
        "image_20240101_120000.jpg" = some [4, 5] :=
  ⟨(multipart_part_wins now0 initState [("image", ⟨"c.jpg", [4, 5]⟩)]
      [("image", "Zm9v")] [] ⟨"c.jpg", [4, 5]⟩ rfl (by decide) (by decide)).1,
   (multipart_part_wins now0 initState [("image", ⟨"c.jpg", [4, 5]⟩)]
      [("image", "Zm9v")] [] ⟨"c.jpg", [4, 5]⟩ rfl (by decide) (by decide)).2⟩

/-- Claim C5: on every reachable state, the Query Endpoint answers 404
with an `error` body exactly when the Latest-Pointer Register is empty;
otherwise it answers 200 with `{filename, timestamp, url}` where the url
path component is the filename and Retrieval of that filename yields the
stored bytes; the query never changes the state. -/
theorem latest_query_contract (ops : List Op) :
    (get_latest_image (runOps ops initState)).1 = runOps ops initState
    ∧ (((get_latest_image (runOps ops initState)).2.status = 404
        ∧ (lookupFirst (get_latest_image (runOps ops initState)).2.body "error").isSome = true)
       ↔ (runOps ops initState).latest_filename = none)
    ∧ (∀ fn, (runOps ops initState).latest_filename = some fn →
        (get_latest_image (runOps ops initState)).2
          = ⟨200, [("filename", some fn),
                   ("timestamp", (runOps ops initState).latest_timestamp),
                   ("url", some ("/images/" ++ fn))]⟩
        ∧ ∃ bs, lookupFirst (runOps ops initState).store fn = some bs
            ∧ get_image (runOps ops initState) fn = ImgResponse.ok bs) := by
  have hinv := registerInv_runOps ops initState registerInv_init
  refine ⟨get_latest_image_fst _, ?_, ?_⟩
  · constructor
    · rintro ⟨h404, _⟩
      rcases hlf : (runOps ops initState).latest_filename with _ | fn
      · rfl
      · rcases hinv fn hlf with ⟨⟨t, rfl⟩, _⟩
        rw [get_latest_image_some _ _ hlf (genFilename_ne_empty t)] at h404
        simp at h404
    · intro hnone
      rw [get_latest_image_none _ hnone]
      exact ⟨rfl, rfl⟩
  · intro fn hlf
    rcases hinv fn hlf with ⟨⟨t, hfn⟩, hsome⟩
    subst hfn
    constructor
    · rw [get_latest_image_some _ _ hlf (genFilename_ne_empty t)]
    · rcases hbs : lookupFirst (runOps ops initState).store
          ("image_" ++ strftimeKey t ++ ".jpg") with _ | bs
      · rw [hbs] at hsome
        simp at hsome
      · exact ⟨bs, rfl, by rw [get_image_genFilename, hbs]⟩

theorem latest_query_contract_witness :
    (get_latest_image (runOps [Op.upload now0 ⟨[("image", ⟨"w.jpg", [5]⟩)], []⟩] initState)).2
        = ⟨200, [("filename", some "image_20240101_120000.jpg"),
                 ("timestamp", some "20240101_120000"),
                 ("url", some "/images/image_20240101_120000.jpg")]⟩
    ∧ (get_latest_image (runOps [] initState)).2.status = 404 :=
  ⟨((latest_query_contract [Op.upload now0 ⟨[("image", ⟨"w.jpg", [5]⟩)], []⟩]).2.2
      "image_20240101_120000.jpg" (by decide)).1,
   by decide⟩

/-- Claim C6, amended: a request with no `image` key in either the
multipart files or the form fields, or whose file part has an empty
filename, gets a 400 response with an `error` body and leaves the state
unchanged.  (An empty-string form value is NOT rejected — see the
counterexample — so the claim's "or an empty image field value" clause is
dropped.) -/
theorem missing_image_rejected (now : DateTime) (st : ServerState) (req : UploadRequest)
    (h : (lookupFirst req.files "image" = none ∧ lookupFirst req.form "image" = none)
       ∨ (∃ fp, lookupFirst req.files "image" = some fp ∧ fp.filename = "")) :
    (upload_image now st req).1 = st
    ∧ (upload_image now st req).2.status = 400
    ∧ (lookupFirst (upload_image now st req).2.body "error").isSome = true := by
  rcases h with ⟨hf, hform⟩ | ⟨fp, hf, hn⟩
  · rw [upload_image_noimage now st req hf hform]
    exact ⟨rfl, rfl, rfl⟩
  · rw [upload_image_emptyname now st req fp hf hn]
    exact ⟨rfl, rfl, rfl⟩

theorem missing_image_rejected_witness :
    (upload_image now0 initState ⟨[], []⟩).1 = initState
    ∧ (upload_image now0 initState ⟨[], []⟩).2.status = 400
    ∧ (lookupFirst (upload_image now0 initState ⟨[], []⟩).2.body "error").isSome = true :=
  missing_image_rejected now0 initState ⟨[], []⟩ (Or.inl ⟨rfl, rfl⟩)

/-- Counterexample to claim C6 as stated: an upload whose `image` form
field is the empty string is not rejected with a 4xx — the empty string
base64-decodes to zero bytes, an empty blob is stored, the register is
updated, and the handler returns 200. -/
theorem empty_form_value_accepted :
    (upload_image now0 initState ⟨[], [("image", "")]⟩).2.status = 200
    ∧ (upload_image now0 initState ⟨[], [("image", "")]⟩).1.latest_filename
        = some "image_20240101_120000.jpg"
    ∧ lookupFirst (upload_image now0 initState ⟨[], [("image", "")]⟩).1.store
        "image_20240101_120000.jpg" = some []
    ∧ initState.latest_filename = none
    ∧ (decide ((upload_image now0 initState ⟨[], [("image", "")]⟩).1 = initState)) = false
    ∧ (decide ((upload_image now0 initState ⟨[], [("image", "")]⟩).2.status = 400)) = false := by
  decide

/-- Claim C7: the upload handler is total — every request yields a 200,
400 or 500 response; a non-200 response leaves the Latest-Pointer Register
unchanged; and a 500 response's body is exactly an `error` entry carrying
the message of the base64 decode failure that was raised. -/
theorem upload_failure_contained (now : DateTime) (st : ServerState) (req : UploadRequest) :
    ((upload_image now st req).2.status = 200 ∨ (upload_image now st req).2.status = 400
      ∨ (upload_image now st req).2.status = 500)
    ∧ ((upload_image now st req).2.status ≠ 200 →
        (upload_image now st req).1.latest_filename = st.latest_filename
        ∧ (upload_image now st req).1.latest_timestamp = st.latest_timestamp)
    ∧ ((upload_image now st req).2.status = 500 →
        ∃ e, (upload_image now st req).2.body = [("error", some e)]
          ∧ b64decode (stripPayload ((lookupFirst req.form "image").getD "").data)
              = Except.error e) := by
  rcases hfe : lookupFirst req.files "image" with _ | fp
  · rcases hfo : lookupFirst req.form "image" with _ | s
    · rw [upload_image_noimage now st req hfe hfo]
      exact ⟨Or.inr (Or.inl rfl), fun _ => ⟨rfl, rfl⟩, fun h500 => by simp at h500⟩
    · rcases hdec : b64decode (stripPayload s.data) with e | bs
      · rw [upload_image_form_err now st req s e hfe hfo hdec]
        refine ⟨Or.inr (Or.inr rfl), fun _ => ⟨rfl, rfl⟩, fun _ => ⟨e, rfl, ?_⟩⟩
        simp only [Option.getD_some]
        exact hdec
      · rw [upload_image_form_ok now st req s bs hfe hfo hdec]
        exact ⟨Or.inl rfl, fun h => absurd rfl h, fun h500 => by simp at h500⟩
  · by_cases hn : fp.filename = ""
    · rw [upload_image_emptyname now st req fp hfe hn]
      exact ⟨Or.inr (Or.inl rfl), fun _ => ⟨rfl, rfl⟩, fun h500 => by simp at h500⟩
    · rw [upload_image_mp now st req fp hfe hn]
      exact ⟨Or.inl rfl, fun h => absurd rfl h, fun h500 => by simp at h500⟩

theorem upload_failure_contained_witness :
    (upload_image now0 initState ⟨[], [("image", "QQ")]⟩).2.status = 500
    ∧ ((upload_image now0 initState ⟨[], [("image", "QQ")]⟩).1.latest_filename
          = initState.latest_filename
        ∧ (upload_image now0 initState ⟨[], [("image", "QQ")]⟩).1.latest_timestamp
          = initState.latest_timestamp)
    ∧ (∃ e, (upload_image now0 initState ⟨[], [("image", "QQ")]⟩).2.body
          = [("error", some e)]
        ∧ b64decode (stripPayload
            ((lookupFirst ([("image", "QQ")] : List (String × String)) "image").getD "").data)
          = Except.error e) :=
  ⟨by decide,
   (upload_failure_contained now0 initState ⟨[], [("image", "QQ")]⟩).2.1 (by decide),
   (upload_failure_contained now0 initState ⟨[], [("image", "QQ")]⟩).2.2 (by decide)⟩

/-- Claim C8: the Retrieval Endpoint treats its filename argument purely
as a key of the flat store — traversal names resolve to nothing, a 200 can
only serve exactly the bytes stored under that key, and an absent key
yields a 404 rather than an error. -/
theorem retrieval_pure_key_lookup (st : ServerState) (fn : String) :
    get_image st ".." = ImgResponse.notFound
    ∧ get_image st ("../" ++ fn) = ImgResponse.notFound
    ∧ (∀ bs, get_image st fn = ImgResponse.ok bs → lookupFirst st.store fn = some bs)
    ∧ (lookupFirst st.store fn = none → get_image st fn = ImgResponse.notFound) := by
  refine ⟨?_, ?_, ?_, ?_⟩
  · unfold get_image
    rw [if_pos (Or.inr (Or.inr (Or.inl rfl)))]
  · have hmem : ('/' : Char) ∈ ("../" ++ fn).data := by
      have hdata : ("../" ++ fn).data = '.' :: '.' :: '/' :: fn.data := rfl
      rw [hdata]
      exact List.mem_cons_of_mem _ (List.mem_cons_of_mem _ (List.mem_cons_self _ _))
    unfold get_image
    rw [if_pos (Or.inr (Or.inr (Or.inr (Or.inl hmem))))]
  · intro bs hok
    unfold get_image at hok
    by_cases hguard : (fn = "" ∨ fn = "." ∨ fn = ".." ∨ '/' ∈ fn.data ∨ '\\' ∈ fn.data)
    · rw [if_pos hguard] at hok
      exact ImgResponse.noConfusion hok
    · rw [if_neg hguard] at hok
      rcases hl : lookupFirst st.store fn with _ | bs'
      · rw [hl] at hok
        exact ImgResponse.noConfusion hok
      · rw [hl] at hok
        simp at hok
        rw [hok]
  · intro hnone
    unfold get_image
    by_cases hguard : (fn = "" ∨ fn = "." ∨ fn = ".." ∨ '/' ∈ fn.data ∨ '\\' ∈ fn.data)
    · rw [if_pos hguard]
    · rw [if_neg hguard, hnone]

theorem retrieval_pure_key_lookup_witness :
    lookupFirst (⟨[("a.jpg", [7])], none, none⟩ : ServerState).store "a.jpg" = some [7]
    ∧ get_image (⟨[("a.jpg", [7])], none, none⟩ : ServerState) "missing.jpg"
        = ImgResponse.notFound
    ∧ get_image (⟨[("a.jpg", [7])], none, none⟩ : ServerState) ".."
        = ImgResponse.notFound :=
  ⟨(retrieval_pure_key_lookup ⟨[("a.jpg", [7])], none, none⟩ "a.jpg").2.2.1 [7] (by decide),
   (retrieval_pure_key_lookup ⟨[("a.jpg", [7])], none, none⟩ "missing.jpg").2.2.2 (by decide),
   (retrieval_pure_key_lookup ⟨[("a.jpg", [7])], none, none⟩ "..").1⟩

/-! ### Claim C3: the data-URI stripping step -/

theorem splitComma_ne_nil (s : List Char) : splitComma s ≠ [] := by
  cases s with
  | nil => simp [splitComma]
  | cons c cs =>
    unfold splitComma
    split
    · simp
    · split <;> simp

theorem splitComma_no_comma (s : List Char) (h : (',' : Char) ∉ s) : splitComma s = [s] := by
  induction s with
  | nil => rfl
  | cons c cs ih =>
    have hc : ¬ c = ',' := by
      intro he
      exact h (by rw [he]; exact List.mem_cons_self _ _)
    have hcs : (',' : Char) ∉ cs := fun hm => h (List.mem_cons_of_mem c hm)
    unfold splitComma
    rw [if_neg hc, ih hcs]

theorem stripPayload_eq_spec (s : List Char) (h : s.count ',' ≤ 1) :
    stripPayload s = stripPayloadSpec s := by
  induction s with
  | nil => rfl
  | cons c cs ih =>
    by_cases hc : c = ','
    · subst hc
      have hcs0 : cs.count ',' = 0 := by
        rw [List.count_cons] at h
        simp at h
        omega
      have hnc : (',' : Char) ∉ cs := List.count_eq_zero.mp hcs0
      unfold stripPayload stripPayloadSpec
      rw [if_pos (List.mem_cons_self _ _), if_pos (List.mem_cons_self _ _)]
      show (splitComma (',' :: cs)).getD 1 [] = afterFirstComma (',' :: cs)
      unfold splitComma afterFirstComma
      rw [if_pos rfl, if_pos rfl, splitComma_no_comma cs hnc]
      rfl
    · have hcnt : cs.count ',' ≤ 1 := by
        rw [List.count_cons] at h
        omega
      by_cases hmem : (',' : Char) ∈ cs
      · have hmem' : (',' : Char) ∈ c :: cs := List.mem_cons_of_mem c hmem
        have hafc : afterFirstComma (c :: cs) = afterFirstComma cs := by
          show (if c = ',' then cs else afterFirstComma cs) = afterFirstComma cs
          rw [if_neg hc]
        obtain ⟨hd, tl, hsplit⟩ : ∃ hd tl, splitComma cs = hd :: tl := by
          rcases hsc : splitComma cs with _ | ⟨hd, tl⟩
          · exact absurd hsc (splitComma_ne_nil cs)
          · exact ⟨hd, tl, rfl⟩
        have hsc2 : splitComma (c :: cs) = (c :: hd) :: tl := by
          unfold splitComma
          rw [if_neg hc, hsplit]
        have ihh := ih hcnt
        unfold stripPayload stripPayloadSpec at ihh
        rw [if_pos hmem, if_pos hmem, hsplit] at ihh
        unfold stripPayload stripPayloadSpec
        rw [if_pos hmem', if_pos hmem', hsc2, hafc]
        exact ihh
      · have hmem' : (',' : Char) ∉ c :: cs := by
          intro hm
          rcases List.mem_cons.mp hm with he | hm2
          · exact hc he.symm
          · exact hmem hm2
        unfold stripPayload stripPayloadSpec
        rw [if_neg hmem', if_neg hmem']

/-- Counterexample to claim C3 as stated: for a form value with two commas
the handler stores the decode of the segment strictly between the first
and second commas (`split(',')[1]`), not the decode of everything after
the first comma.  Here `"Zm9v,YmFy,YmF6"` stores `"bar"` while the claim's
reading decodes to `"barbaz"`. -/
theorem base64_double_comma_cex :
    lookupFirst (upload_image now0 initState ⟨[], [("image", "Zm9v,YmFy,YmF6")]⟩).1.store
        "image_20240101_120000.jpg" = some [98, 97, 114]
    ∧ b64decode (stripPayloadSpec ("Zm9v,YmFy,YmF6" : String).data)
        = Except.ok [98, 97, 114, 98, 97, 122]
    ∧ (decide (([98, 97, 114] : List Nat) = [98, 97, 114, 98, 97, 122])) = false := by
  refine ⟨by decide, by decide, by decide⟩

/-- Claim C3, amended: the decoder takes the comma-split's element 1 —
the segment strictly between the first and second commas.  For payloads
with at most one comma (every well-formed data-URI or bare base64 value)
this coincides with "everything after the first comma", the decoded bytes
are stored under the generated key, and Retrieval returns them exactly. -/
theorem base64_single_comma_roundtrip (now : DateTime) (st : ServerState)
    (req : UploadRequest) (s : String) (bs : List Nat)
    (hf : lookupFirst req.files "image" = none)
    (hform : lookupFirst req.form "image" = some s)
    (hc : s.data.count ',' ≤ 1)
    (hdec : b64decode (stripPayload s.data) = Except.ok bs) :
    stripPayload s.data = stripPayloadSpec s.data
    ∧ (upload_image now st req).2.status = 200
    ∧ lookupFirst (upload_image now st req).1.store ("image_" ++ strftimeKey now ++ ".jpg")
        = some bs
    ∧ get_image (upload_image now st req).1 ("image_" ++ strftimeKey now ++ ".jpg")
        = ImgResponse.ok bs := by
  refine ⟨stripPayload_eq_spec s.data hc, ?_, ?_, ?_⟩
  · rw [upload_image_form_ok now st req s bs hf hform hdec]
  · rw [upload_image_form_ok now st req s bs hf hform hdec]
    exact lookupFirst_cons_self _ _ _
  · rw [upload_image_form_ok now st req s bs hf hform hdec, get_image_genFilename,
      lookupFirst_cons_self]

theorem base64_single_comma_roundtrip_witness :
    b64decode (stripPayload ("data:image/jpeg;base64,Zm9v" : String).data)
        = Except.ok [102, 111, 111]
    ∧ stripPayload ("data:image/jpeg;base64,Zm9v" : String).data
        = stripPayloadSpec ("data:image/jpeg;base64,Zm9v" : String).data
    ∧ lookupFirst (upload_image now0 initState
          ⟨[], [("image", "data:image/jpeg;base64,Zm9v")]⟩).1.store
        "image_20240101_120000.jpg" = some [102, 111, 111] :=
  ⟨by decide,
   (base64_single_comma_roundtrip now0 initState
      ⟨[], [("image", "data:image/jpeg;base64,Zm9v")]⟩ "data:image/jpeg;base64,Zm9v"
      [102, 111, 111] rfl rfl (by decide) (by decide)).1,
   (base64_single_comma_roundtrip now0 initState
      ⟨[], [("image", "data:image/jpeg;base64,Zm9v")]⟩ "data:image/jpeg;base64,Zm9v"
      [102, 111, 111] rfl rfl (by decide) (by decide)).2.2.1⟩

/-! ### Claim C9: atomicity of the register -/

/-- Counterexample to claim C9 as stated: the register update is two
separate field assignments, so under interleaving a reader can observe a
torn record.  The schedule interleaves one complete update
(`image_a.jpg`, `20240101_120000`) with the first assignment of a second
update (`image_b.jpg`, `20240101_120001`); a reader then sees the second
update's filename paired with the first update's timestamp — a pair
belonging to neither update. -/
theorem torn_register_read_cex :
    isInterleaving (setWrites "image_a.jpg" "20240101_120000")
        [RegWrite.wfn "image_b.jpg"]
        [RegWrite.wfn "image_a.jpg", RegWrite.wts "20240101_120000",
         RegWrite.wfn "image_b.jpg"] = true
    ∧ List.isPrefixOf [RegWrite.wfn "image_b.jpg"]
        (setWrites "image_b.jpg" "20240101_120001") = true
    ∧ runWrites [RegWrite.wfn "image_a.jpg", RegWrite.wts "20240101_120000",
          RegWrite.wfn "image_b.jpg"] ⟨none, none⟩
        = ⟨some "image_b.jpg", some "20240101_120000"⟩
    ∧ (decide ((⟨some "image_b.jpg", some "20240101_120000"⟩ : Reg)
        = ⟨some "image_a.jpg", some "20240101_120000"⟩)) = false
    ∧ (decide ((⟨some "image_b.jpg", some "20240101_120000"⟩ : Reg)
        = ⟨some "image_b.jpg", some "20240101_120001"⟩)) = false := by
  decide

/-- Claim C9, amended: the register's two fields are written by two
separate assignments, so torn records are observable under interleaving
(see the counterexample); when register updates do not interleave — each
update's two writes complete before the next update or read — the
register always holds exactly the filename-timestamp pair of the last
completed update. -/
theorem register_sequential_consistent (sets : List (String × String))
    (f t : String) (r : Reg) :
    runSets (sets ++ [(f, t)]) r = ⟨some f, some t⟩ := by
  induction sets generalizing r with
  | nil => rfl
  | cons p rest ih => exact ih _

end ESPLiveView
